import Mathlib

/-!
A shallow embedding, in Lean 4, of the core of the Baseai AI-copilot library
(`src/lib/ai-copilot`): the context cache and user history of
`ContextManager.ts`, the code indexer, the template engine of
`TemplateEngine.ts`, the code generator of `CodeGenerator.ts`, the engine of
`CopilotEngine.ts`, the complexity analysis of `CodeAnalyzer.ts` and the
language detection of `PluginManager.ts` / `LanguagePlugin.ts`.

JavaScript `Map`s are modelled as insertion-ordered association lists, the
wall clock (`Date.now()`) is passed explicitly, exceptions become `Except`,
and numbers are `Nat`/`ℚ`.  Host functions that the verified claims do not
exercise internally (the JS `RegExp` engine inside the template matcher, the
AI provider transport, response parsing) are taken as parameters.
-/

namespace Baseai

/-- A JS `Map<string, α>` modelled as an insertion-ordered association list. -/
abbrev AList (α : Type) := List (String × α)

namespace AList

/-- `Map.get(k)`: the first binding of `k` (keys created through `set` / `del`
are unique, so the first binding is the binding). -/
def get? (l : AList α) (k : String) : Option α :=
  List.lookup k l

/-- `Map.set(k, v)`: update an existing binding in place (keeping its position,
as a JS `Map` does) or append a new binding at the end. -/
def set : AList α → String → α → AList α
  | [], k, v => [(k, v)]
  | p :: rest, k, v =>
    if p.1 == k then (k, v) :: rest else p :: set rest k v

/-- `Map.delete(k)`. -/
def del (l : AList α) (k : String) : AList α :=
  l.filter (fun p => p.1 != k)

/-- The keys of a map, in insertion order. -/
def keyList (l : AList α) : List String :=
  l.map Prod.fst

end AList

/-! ### `ContextCache` (ContextManager.ts, lines 291-362) -/

/-- The state of a `ContextCache`: the value map, the timestamp map, `maxSize`
and `ttl` (milliseconds).  `Date.now()` is passed to the operations. -/
structure ContextCache (α : Type) where
  cache : AList α
  timestamps : AList Nat
  maxSize : Nat
  ttl : Nat

namespace ContextCache

/-- `delete(key)`: remove the key from both maps. -/
def deleteKey (c : ContextCache α) (key : String) : ContextCache α :=
  { c with cache := c.cache.del key, timestamps := c.timestamps.del key }

/-- The entry of the timestamp map with the smallest timestamp — the
earliest-inserted one among ties, since the source stably sorts the entries
by timestamp ascending and takes the head. -/
def oldestEntry? : AList Nat → Option (String × Nat)
  | [] => none
  | p :: rest =>
    match oldestEntry? rest with
    | none => some p
    | some q => if q.2 < p.2 then some q else some p

/-- `evict()`: delete the entry with the oldest timestamp.  The source
guards the deletion with `if (oldestKey)`, which is falsy both for a
missing key (empty map) and for the empty-string key — in the latter case
the JS skips the eviction. -/
def evict (c : ContextCache α) : ContextCache α :=
  match oldestEntry? c.timestamps with
  | some p => if p.1 = "" then c else c.deleteKey p.1
  | none => c

/-- The unconditional tail of `set`: write the value and its timestamp. -/
def insertRaw (c : ContextCache α) (now : Nat) (key : String) (value : α) :
    ContextCache α :=
  { c with
    cache := c.cache.set key value
    timestamps := c.timestamps.set key now }

/-- `set(key, value)` at clock time `now`: evict first when at capacity
(`this.cache.size >= this.maxSize`), then write the value and its timestamp. -/
def set (c : ContextCache α) (now : Nat) (key : String) (value : α) :
    ContextCache α :=
  insertRaw (if c.maxSize ≤ c.cache.length then c.evict else c) now key value

/-- The state invariant the public operations maintain: the two maps bind the
same keys in the same order, and keys are unique (as in a JS `Map`). -/
def wf (c : ContextCache α) : Prop :=
  AList.keyList c.cache = AList.keyList c.timestamps ∧
    (AList.keyList c.cache).Nodup

/-- `get(key)` at clock time `now`: `null` when the timestamp is missing (or
`0`, which the JS guard `if (!timestamp)` also treats as missing); when the
entry is strictly more than `ttl` ms old, delete it and return `null`;
otherwise return the cached value.  Returns the result together with the
updated cache state. -/
def get (c : ContextCache α) (now : Nat) (key : String) :
    Option α × ContextCache α :=
  match c.timestamps.get? key with
  | none => (none, c)
  | some t =>
    if t = 0 then (none, c)
    else if c.ttl < now - t then (none, c.deleteKey key)
    else (c.cache.get? key, c)

end ContextCache

/-! ### `UserHistory` bookkeeping (ContextManager.ts, lines 135-176) -/

/-- `UserHistory` (core/types.ts): three bounded most-recent-first lists. -/
structure UserHistory where
  recentPrompts : List String
  preferredPatterns : List String
  commonMistakes : List String
deriving DecidableEq

/-- A fresh history, as `getUserHistory` creates it for an unknown user. -/
def UserHistory.empty : UserHistory := ⟨[], [], []⟩

/-- `addUserPrompt`: unshift the prompt, then truncate to the 10 most
recent when the list has grown beyond 10. -/
def addUserPrompt (h : UserHistory) (prompt : String) : UserHistory :=
  let l := prompt :: h.recentPrompts
  { h with recentPrompts := if 10 < l.length then l.take 10 else l }

/-- `addPreferredPattern`: when the pattern is absent, unshift it and truncate
to 5; when it is already present, leave the history untouched. -/
def addPreferredPattern (h : UserHistory) (p : String) : UserHistory :=
  if h.preferredPatterns.contains p then h
  else
    let l := p :: h.preferredPatterns
    { h with preferredPatterns := if 5 < l.length then l.take 5 else l }

/-- `addCommonMistake`: same discipline as `addPreferredPattern`, on the
`commonMistakes` list. -/
def addCommonMistake (h : UserHistory) (m : String) : UserHistory :=
  if h.commonMistakes.contains m then h
  else
    let l := m :: h.commonMistakes
    { h with commonMistakes := if 5 < l.length then l.take 5 else l }

/-- One history-mutating call on the `ContextManager`. -/
inductive HistoryOp where
  | prompt (s : String)
  | pat (s : String)
  | mistake (s : String)

/-- Apply one history-mutating call. -/
def HistoryOp.apply (h : UserHistory) : HistoryOp → UserHistory
  | .prompt s => addUserPrompt h s
  | .pat s => addPreferredPattern h s
  | .mistake s => addCommonMistake h s

/-- All three caps hold of a history. -/
def UserHistory.bounded (h : UserHistory) : Prop :=
  h.recentPrompts.length ≤ 10 ∧
  h.preferredPatterns.length ≤ 5 ∧
  h.commonMistakes.length ≤ 5

instance (h : UserHistory) : Decidable h.bounded := by
  unfold UserHistory.bounded; infer_instance

/-! ### String helpers shared by the embedded modules -/

/-- A JS `\w` (ASCII word) character. -/
def wordChar (c : Char) : Bool :=
  c.isAlphanum || c == '_'

/-- A JS `\s` character, restricted to the whitespace the sources produce. -/
def wsChar (c : Char) : Bool :=
  c == ' ' || c == '\t' || c == '\n' || c == '\r'

/-- JS `haystack.includes(needle)`. -/
def strIncludes (hay needle : String) : Bool :=
  hay.toList.tails.any (fun t => needle.toList.isPrefixOf t)

/-- ASCII lowering of one character, as `toLowerCase` acts on the ASCII
strings these modules handle. -/
def charLower (c : Char) : Char :=
  if 'A' ≤ c ∧ c ≤ 'Z' then Char.ofNat (c.toNat + 32) else c

/-- JS `s.toLowerCase()`. -/
def strToLower (s : String) : String :=
  String.mk (s.toList.map charLower)

/-- JS `s.startsWith(pre)`. -/
def strStartsWith (s pre : String) : Bool :=
  pre.toList.isPrefixOf s.toList

/-- Split at every character satisfying the predicate (the splitting under
JS `/\s+/` splitting: runs of separators yield empty pieces, which every
caller filters away by word length). -/
def strSplitPredL (p : Char → Bool) : List Char → List (List Char)
  | [] => [[]]
  | c :: rest =>
    if p c then [] :: strSplitPredL p rest
    else
      match strSplitPredL p rest with
      | [] => [[c]]
      | h :: t => (c :: h) :: t

/-- Split a string at every character satisfying the predicate. -/
def strSplitPred (p : Char → Bool) (s : String) : List String :=
  (strSplitPredL p s.toList).map String.mk

/-- JS `s.split(sep)` on character lists: split at each non-overlapping
occurrence of the (nonempty) separator, left to right. -/
def strSplitOnL (sep l : List Char) : List (List Char) :=
  go l.length l
where
  /-- Structural recursion on a fuel that bounds the remaining length. -/
  go : Nat → List Char → List (List Char)
  | _, [] => [[]]
  | 0, l => [l]
  | fuel + 1, c :: rest =>
    if sep.isPrefixOf (c :: rest) then
      [] :: go fuel (List.drop (sep.length - 1) rest)
    else
      match go fuel rest with
      | [] => [[c]]
      | h :: t => (c :: h) :: t

/-- JS `s.split(sep)` for a nonempty literal separator. -/
def strSplitOn (s sep : String) : List String :=
  if sep = "" then [s]
  else (strSplitOnL sep.toList s.toList).map String.mk

/-- JS `s.trim()` on the whitespace the sources produce. -/
def strTrim (s : String) : String :=
  String.mk (((s.toList.dropWhile wsChar).reverse.dropWhile wsChar).reverse)

/-- Replace every non-overlapping occurrence of the (nonempty) pattern,
left to right — JS `s.replace(new RegExp(literal, 'g'), repl)`. -/
def strReplaceAllL (pat repl l : List Char) : List Char :=
  go l.length l
where
  /-- Structural recursion on a fuel that bounds the remaining length. -/
  go : Nat → List Char → List Char
  | _, [] => []
  | 0, l => l
  | fuel + 1, c :: rest =>
    if pat.isPrefixOf (c :: rest) then
      repl ++ go fuel (List.drop (pat.length - 1) rest)
    else
      c :: go fuel rest

/-- JS `s.replace(new RegExp(literalPattern, 'g'), repl)`. -/
def strReplaceAll (s pat repl : String) : String :=
  if pat = "" then s
  else String.mk (strReplaceAllL pat.toList repl.toList s.toList)

/-- `[...new Set(words)]`: deduplicate keeping first occurrences in order. -/
def dedupFirst (l : List String) : List String :=
  go [] l
where
  go : List String → List String → List String
  | _, [] => []
  | seen, x :: xs =>
    if seen.contains x then go seen xs else x :: go (x :: seen) xs

/-! ### `CodeIndexer` (ContextManager.ts, lines 364-473) -/

/-- `levenshteinDistance` (lines 434-457): the source fills the standard DP
matrix `matrix[j][i] = min(del, ins, subst)`; this is the same recurrence
written recursively. -/
def levenshteinDistance (s1 s2 : List Char) : Nat :=
  go (s1.length + s2.length) s1 s2
where
  /-- Structural recursion on a fuel bounding the two lengths. -/
  go : Nat → List Char → List Char → Nat
  | _, [], ys => ys.length
  | _, x :: xs, [] => (x :: xs).length
  | 0, _, _ => 0
  | fuel + 1, x :: xs, y :: ys =>
    let indicator := if x == y then 0 else 1
    min (go fuel (x :: xs) ys + 1)
      (min (go fuel xs (y :: ys) + 1)
        (go fuel xs ys + indicator))

/-- `calculateSimilarity` (lines 423-432): `(longer.length - distance) /
longer.length`, and `1.0` for two empty strings. -/
def calculateSimilarity (str1 str2 : String) : ℚ :=
  let longer := if str2.length < str1.length then str1 else str2
  let shorter := if str2.length < str1.length then str2 else str1
  if longer.length = 0 then 1
  else
    mkRat
      ((longer.length : Int) -
        (levenshteinDistance longer.toList shorter.toList : Int))
      longer.length

/-- `isSimilarFileName` (lines 412-421): compare the parts before the first
dot by equality, containment either way, or similarity above `0.7`. -/
def isSimilarFileName (name1 name2 : String) : Bool :=
  let base1 := (strSplitOn name1 ".").headD ""
  let base2 := (strSplitOn name2 ".").headD ""
  base1 == base2 || strIncludes base1 base2 || strIncludes base2 base1 ||
    decide (mkRat 7 10 < calculateSimilarity base1 base2)

/-- `extractKeywords` (lines 459-467): lowercase, replace every character that
is neither a word nor a whitespace character by a space, split on whitespace,
keep words longer than 3, deduplicate. -/
def indexerExtractKeywords (content : String) : List String :=
  let cleaned := String.mk ((strToLower content).toList.map
    (fun c => if wordChar c || wsChar c then c else ' '))
  dedupFirst ((strSplitPred wsChar cleaned).filter (fun w => 3 < w.length))

/-- The state of a `CodeIndexer`: the inverted index (keyword → file paths)
and the stored file contents. -/
structure CodeIndexer where
  index : AList (List String)
  fileContents : AList String

/-- A fresh indexer. -/
def CodeIndexer.empty : CodeIndexer := ⟨[], []⟩

/-- `indexFile(filePath, content)` (lines 393-410): store the content, then
register the file under each extracted keyword, deduplicating per keyword. -/
def CodeIndexer.indexFile (ci : CodeIndexer) (filePath content : String) :
    CodeIndexer :=
  let ci := { ci with fileContents := ci.fileContents.set filePath content }
  (indexerExtractKeywords content).foldl
    (fun ci kw =>
      let files := (ci.index.get? kw).getD []
      let files := if files.contains filePath then files else files ++ [filePath]
      { ci with index := ci.index.set kw files })
    ci

/-- `findRelated(filePath)` (lines 373-391), verbatim: the loop
`for (const [indexedPath] of this.index)` iterates the **keys of the inverted
index**, i.e. the keywords — not the indexed file paths — and pushes the
keyword itself when its name looks similar; then take the first 5. -/
def CodeIndexer.findRelated (ci : CodeIndexer) (filePath : String) :
    List String :=
  let fileName := strToLower ((strSplitOn filePath "/").getLastD "")
  let related := ci.index.foldl
    (fun acc kv =>
      let indexedPath := kv.1
      if indexedPath == filePath then acc
      else
        let indexedFileName :=
          strToLower ((strSplitOn indexedPath "/").getLastD "")
        if isSimilarFileName fileName indexedFileName then acc ++ [indexedPath]
        else acc)
    []
  related.take 5

/-! ### `TemplateEngine` (TemplateEngine.ts) -/

/-- `TemplateVariable` (core/types.ts). -/
structure TemplateVariable where
  name : String
  type : String
  description : String
  required : Bool
  defaultValue : Option String
deriving DecidableEq

/-- `TemplateExample` (core/types.ts); `variables` is a JS record. -/
structure TemplateExample where
  description : String
  vars : AList String
  output : String
deriving DecidableEq

/-- `CodeTemplate` (core/types.ts). -/
structure CodeTemplate where
  id : String
  name : String
  description : String
  language : String
  framework : Option String
  pattern : String
  template : String
  vars : List TemplateVariable
  examples : List TemplateExample
deriving DecidableEq

/-- `TemplateMatch` (core/types.ts). -/
structure TemplateMatch where
  template : CodeTemplate
  confidence : ℚ
  vars : AList String
deriving DecidableEq

/-- `CodeGenerationRequest` (core/types.ts); the `context` and `options`
fields do not flow into the template engine and are not modelled. -/
structure CodeGenerationRequest where
  prompt : String
  language : String
  framework : Option String
deriving DecidableEq

/-- `TemplateMatcher.extractKeywords` (lines 430-434): words of
`name ++ " " ++ description`, lowercased, longer than 2, deduplicated. -/
def matcherExtractKeywords (name description : String) : List String :=
  let text := strToLower (name ++ " " ++ description)
  dedupFirst ((strSplitPred wsChar text).filter (fun w => 2 < w.length))

/-- `TemplateMatcher.calculateConfidence` (lines 408-428).  The JS call
`new RegExp(template.pattern, 'i').test(prompt)` is the parameter
`regexTest template.pattern prompt`; the empty pattern is falsy and skipped.
When the keyword list is empty the JS quotient is `NaN`, whose comparisons
are all false, matching the `0` that division by zero yields in `ℚ`: either
way such a template cannot pass a positive threshold through keywords. -/
def calculateConfidence (regexTest : String → String → Bool)
    (prompt : String) (t : CodeTemplate) : ℚ :=
  let patternScore : ℚ :=
    if t.pattern != "" && regexTest t.pattern prompt then 6 / 10 else 0
  let keywords := matcherExtractKeywords t.name t.description
  let keywordMatches :=
    (keywords.filter
      (fun kw => strIncludes (strToLower prompt) (strToLower kw))).length
  min (patternScore + ((keywordMatches : ℚ) / (keywords.length : ℚ)) * (4 / 10)) 1

/-- `TemplateMatcher.extractVariables` (lines 436-451).  The per-variable
regex probing of `extractVariableValue` is the host parameter `extractVal`;
its captured groups are nonempty, so `some` corresponds exactly to a truthy
JS value.  On a miss the default value is used when one is declared. -/
def extractVariables (extractVal : String → String → String → Option String)
    (prompt : String) (t : CodeTemplate) : AList String :=
  t.vars.foldl
    (fun acc v =>
      match extractVal prompt v.name v.type with
      | some value => acc.set v.name value
      | none =>
        match v.defaultValue with
        | some d => acc.set v.name d
        | none => acc)
    []

/-- `TemplateMatcher.match` (lines 397-406). -/
def TemplateMatcher.matchT (regexTest : String → String → Bool)
    (extractVal : String → String → String → Option String)
    (prompt : String) (t : CodeTemplate) : TemplateMatch :=
  ⟨t, calculateConfidence regexTest prompt t, extractVariables extractVal prompt t⟩

/-- The `for`-loop of `TemplateEngine.match` (lines 24-29): first template
whose confidence exceeds `0.8` wins. -/
def matchFirst (regexTest : String → String → Bool)
    (extractVal : String → String → String → Option String)
    (prompt : String) : List CodeTemplate → Option TemplateMatch
  | [] => none
  | t :: rest =>
    let m := TemplateMatcher.matchT regexTest extractVal prompt t
    if (4 : ℚ) / 5 < m.confidence then some m
    else matchFirst regexTest extractVal prompt rest

/-- `TemplateEngine.match` (lines 21-32): look up the templates registered
under `request.language` (empty list when none) and scan them in
registration order. -/
def TemplateEngine.matchE (regexTest : String → String → Bool)
    (extractVal : String → String → String → Option String)
    (templates : AList (List CodeTemplate))
    (request : CodeGenerationRequest) : Option TemplateMatch :=
  matchFirst regexTest extractVal request.prompt
    ((templates.get? request.language).getD [])

/-- One segment following an occurrence of the literal `"\x7b\x7b#if "` while
replaying the global regex `\x7b\x7b#if\s+(\w+)\x7d\x7d([\s\S]*?)\x7b\x7b/if\x7d\x7d`
of `handleConditionals` (lines 491-502): the variable name must be made of
word characters and be closed by `\x7d\x7d`, the lazy body runs to the first
`\x7b\x7b/if\x7d\x7d`; a truthy variable (present, not `""`/`"false"`/`"0"`)
keeps the body, anything else drops it; a malformed head is left verbatim. -/
def handleIfSeg (vars : AList String) (seg : String) : String :=
  let orig := "\x7b\x7b#if " ++ seg
  match strSplitOn seg "\x7d\x7d" with
  | [] => orig
  | namePart :: rest =>
    let rest2 := String.intercalate "\x7d\x7d" rest
    match strSplitOn rest2 "\x7b\x7b/if\x7d\x7d" with
    | [] => orig
    | body :: after =>
      if after.isEmpty || namePart == "" || !(namePart.toList.all wordChar) then
        orig
      else
        let keep :=
          match vars.get? namePart with
          | some v => v != "" && v != "false" && v != "0"
          | none => false
        (if keep then body else "") ++
          String.intercalate "\x7b\x7b/if\x7d\x7d" after

/-- `handleConditionals` (lines 491-502) over the whole string. -/
def handleConditionals (vars : AList String) (s : String) : String :=
  match strSplitOn s "\x7b\x7b#if " with
  | [] => s
  | first :: rest => first ++ String.join (rest.map (handleIfSeg vars))

/-- One segment of `handleLoops` (lines 504-520).  The variables record holds
strings, so `Array.isArray(value)` is always false and a well-formed
`\x7b\x7b#each x\x7d\x7d...\x7b\x7b/each\x7d\x7d` block is always replaced by
the empty string. -/
def handleEachSeg (seg : String) : String :=
  let orig := "\x7b\x7b#each " ++ seg
  match strSplitOn seg "\x7d\x7d" with
  | [] => orig
  | namePart :: rest =>
    let rest2 := String.intercalate "\x7d\x7d" rest
    match strSplitOn rest2 "\x7b\x7b/each\x7d\x7d" with
    | [] => orig
    | _body :: after =>
      if after.isEmpty || namePart == "" || !(namePart.toList.all wordChar) then
        orig
      else
        "" ++ String.intercalate "\x7b\x7b/each\x7d\x7d" after

/-- `handleLoops` (lines 504-520) over the whole string. -/
def handleLoops (s : String) : String :=
  match strSplitOn s "\x7b\x7b#each " with
  | [] => s
  | first :: rest => first ++ String.join (rest.map handleEachSeg)

/-- `TemplateRenderer.render` (lines 473-489): for each variable in record
order replace every occurrence of the literal `\x7b\x7bname\x7d\x7d` (the JS
`new RegExp` treats those braces as literals, and the example values contain
no `$`-replacement sequences), then process conditional and loop blocks, and
trim. -/
def TemplateRenderer.render (t : CodeTemplate) (vars : AList String) :
    String :=
  let rendered := vars.foldl
    (fun acc kv => strReplaceAll acc ("\x7b\x7b" ++ kv.1 ++ "\x7d\x7d") kv.2)
    t.template
  let rendered := handleConditionals vars rendered
  let rendered := handleLoops rendered
  strTrim rendered

/-! ### The built-in template catalog (TemplateEngine.ts, lines 71-393) -/

/-- The `js-function-basic` template (lines 82-125), with its one example. -/
def jsFunctionBasic : CodeTemplate where
  id := "js-function-basic"
  name := "Basic Function"
  description := "A basic JavaScript function template"
  language := "javascript"
  framework := none
  pattern := "create.*function|write.*function"
  template := "function \x7b\x7bfunctionName\x7d\x7d(\x7b\x7bparameters\x7d\x7d) \x7b\n  \x7b\x7bfunctionBody\x7d\x7d\n\x7d"
  vars := [
    ⟨"functionName", "string", "Name of the function", true, none⟩,
    ⟨"parameters", "string", "Function parameters", false, some ""⟩,
    ⟨"functionBody", "string", "Function implementation", true, none⟩]
  examples := [
    { description := "Simple greeting function"
      vars := [
        ("functionName", "greet"),
        ("parameters", "name"),
        ("functionBody", "return `Hello, $\x7bname\x7d!`;")]
      output := "function greet(name) \x7b\n  return `Hello, $\x7bname\x7d!`;\n\x7d" }]

/-- The `js-class-basic` template (lines 126-168). -/
def jsClassBasic : CodeTemplate where
  id := "js-class-basic"
  name := "Basic Class"
  description := "A basic JavaScript class template"
  language := "javascript"
  framework := none
  pattern := "create.*class|write.*class"
  template := "class \x7b\x7bclassName\x7d\x7d \x7b\n  constructor(\x7b\x7bconstructorParams\x7d\x7d) \x7b\n    \x7b\x7bconstructorBody\x7d\x7d\n  \x7d\n\n  \x7b\x7bmethods\x7d\x7d\n\x7d"
  vars := [
    ⟨"className", "string", "Name of the class", true, none⟩,
    ⟨"constructorParams", "string", "Constructor parameters", false, some ""⟩,
    ⟨"constructorBody", "string", "Constructor implementation", false, some ""⟩,
    ⟨"methods", "string", "Class methods", false, some ""⟩]
  examples := []

/-- The `ts-interface-basic` template (lines 176-199). -/
def tsInterfaceBasic : CodeTemplate where
  id := "ts-interface-basic"
  name := "Basic Interface"
  description := "A basic TypeScript interface template"
  language := "typescript"
  framework := none
  pattern := "create.*interface|define.*interface"
  template := "interface \x7b\x7binterfaceName\x7d\x7d \x7b\n  \x7b\x7bproperties\x7d\x7d\n\x7d"
  vars := [
    ⟨"interfaceName", "string", "Name of the interface", true, none⟩,
    ⟨"properties", "string", "Interface properties", true, none⟩]
  examples := []

/-- The `ts-type-basic` template (lines 200-221). -/
def tsTypeBasic : CodeTemplate where
  id := "ts-type-basic"
  name := "Basic Type"
  description := "A basic TypeScript type template"
  language := "typescript"
  framework := none
  pattern := "create.*type|define.*type"
  template := "type \x7b\x7btypeName\x7d\x7d = \x7b\x7btypeDefinition\x7d\x7d;"
  vars := [
    ⟨"typeName", "string", "Name of the type", true, none⟩,
    ⟨"typeDefinition", "string", "Type definition", true, none⟩]
  examples := []

/-- The `py-function-basic` template (lines 229-266). -/
def pyFunctionBasic : CodeTemplate where
  id := "py-function-basic"
  name := "Basic Function"
  description := "A basic Python function template"
  language := "python"
  framework := none
  pattern := "create.*function|write.*function"
  template := "def \x7b\x7bfunctionName\x7d\x7d(\x7b\x7bparameters\x7d\x7d):\n    \"\"\"\x7b\x7bfunctionDocstring\x7d\x7d\"\"\"\n    \x7b\x7bfunctionBody\x7d\x7d"
  vars := [
    ⟨"functionName", "string", "Name of the function", true, none⟩,
    ⟨"parameters", "string", "Function parameters", false, some ""⟩,
    ⟨"functionDocstring", "string", "Function docstring", false, some ""⟩,
    ⟨"functionBody", "string", "Function implementation", true, none⟩]
  examples := []

/-- The `react-component-basic` template (lines 274-324). -/
def reactComponentBasic : CodeTemplate where
  id := "react-component-basic"
  name := "Basic React Component"
  description := "A basic React functional component template"
  language := "typescript"
  framework := some "react"
  pattern := "create.*component|write.*component"
  template := "import React from \x27react\x27;\n\ninterface \x7b\x7bcomponentName\x7d\x7dProps \x7b\n  \x7b\x7bprops\x7d\x7d\n\x7d\n\nexport const \x7b\x7bcomponentName\x7d\x7d: React.FC<\x7b\x7bcomponentName\x7d\x7dProps> = (\x7b\x7bpropsDestructured\x7d\x7d) => \x7b\n  return (\n    <div>\n      \x7b\x7bcomponentBody\x7d\x7d\n    </div>\n  );\n\x7d;\n\nexport default \x7b\x7bcomponentName\x7d\x7d;"
  vars := [
    ⟨"componentName", "string", "Name of the component", true, none⟩,
    ⟨"props", "string", "Component props interface", false, some ""⟩,
    ⟨"propsDestructured", "string", "Destructured props", false, some ""⟩,
    ⟨"componentBody", "string", "Component JSX content", true, none⟩]
  examples := []

/-- The `nextjs-page-basic` template (lines 332-389). -/
def nextjsPageBasic : CodeTemplate where
  id := "nextjs-page-basic"
  name := "Basic Next.js Page"
  description := "A basic Next.js page component template"
  language := "typescript"
  framework := some "nextjs"
  pattern := "create.*page|write.*page"
  template := "import \x7b NextPage \x7d from \x27next\x27;\n\ninterface \x7b\x7bpageName\x7d\x7dProps \x7b\n  \x7b\x7bprops\x7d\x7d\n\x7d\n\nconst \x7b\x7bpageName\x7d\x7d: NextPage<\x7b\x7bpageName\x7d\x7dProps> = (\x7b\x7bpropsDestructured\x7d\x7d) => \x7b\n  return (\n    <div className=\"container mx-auto px-4\">\n      <h1>\x7b\x7bpageTitle\x7d\x7d</h1>\n      \x7b\x7bpageContent\x7d\x7d\n    </div>\n  );\n\x7d;\n\nexport default \x7b\x7bpageName\x7d\x7d;"
  vars := [
    ⟨"pageName", "string", "Name of the page", true, none⟩,
    ⟨"props", "string", "Page props interface", false, some ""⟩,
    ⟨"propsDestructured", "string", "Destructured props", false, some ""⟩,
    ⟨"pageTitle", "string", "Page title", true, none⟩,
    ⟨"pageContent", "string", "Page content", true, none⟩]
  examples := []

/-- The catalog `loadTemplates` builds through `addTemplate`: a JS map from
language to the templates registered under it, in registration order
(JavaScript, TypeScript — including the React and Next.js templates, whose
`language` is `typescript` — then Python). -/
def builtinCatalog : AList (List CodeTemplate) :=
  [("javascript", [jsFunctionBasic, jsClassBasic]),
   ("typescript", [tsInterfaceBasic, tsTypeBasic, reactComponentBasic, nextjsPageBasic]),
   ("python", [pyFunctionBasic])]

/-- All built-in templates, in the order `getTemplates()` returns them. -/
def builtinTemplates : List CodeTemplate :=
  [jsFunctionBasic, jsClassBasic, tsInterfaceBasic, tsTypeBasic,
   reactComponentBasic, nextjsPageBasic, pyFunctionBasic]

/-! ### `CodeGenerator` (CodeGenerator.ts) and `CopilotEngine` (CopilotEngine.ts) -/

/-- `CopilotConfig` (core/types.ts). -/
structure CopilotConfig where
  aiProvider : String
  model : String
  maxTokens : Nat
  temperature : ℚ
  contextWindow : Nat

/-- `AIRequest` (core/types.ts); `options` does not flow into `generate`. -/
structure AIRequest where
  prompt : String
  system : String

/-- A chat message of the provider payload. -/
structure ChatMessage where
  role : String
  content : String

/-- The payload `CodeGenerator.generate` hands to the provider. -/
structure ProviderRequest where
  messages : List ChatMessage
  max_tokens : Nat
  temperature : ℚ

/-- A thrown JS error, as far as `handleGenerationError` reads it. -/
structure JsError where
  message : String

/-- The `metadata` record of `GeneratedCode`. -/
structure CodeMetadata where
  model : String
  tokensUsed : Nat
  processingTime : Nat
deriving DecidableEq

/-- `GeneratedCode` (core/types.ts); absent optional fields are `none`. -/
structure GeneratedCode where
  code : String
  explanation : String
  confidence : ℚ
  suggestions : List String
  tests : Option String
  metadata : CodeMetadata
deriving DecidableEq

/-- `handleGenerationError` (CodeGenerator.ts, lines 121-133): the fallback
result after a provider exception.  `now` is the `Date.now()` of the
`processingTime` field. -/
def handleGenerationError (cfg : CopilotConfig) (now : Nat) (e : JsError) :
    GeneratedCode where
  code := ""
  explanation := "Failed to generate code: " ++ e.message
  confidence := 0
  suggestions := ["Please try again with a more specific prompt",
                  "Check your internet connection"]
  tests := none
  metadata := ⟨cfg.model, 0, now⟩

/-- `CodeGenerator.generate` (lines 14-30).  The provider transport is the
parameter `providerGen` (an `Except`, since the providers rethrow their
errors), and the response parser `parseResponse` (lines 45-61, not exercised
by the claims) is a parameter over an abstract response type.  A provider
error is caught and turned into `handleGenerationError`. -/
def CodeGenerator.generate {Response : Type} (cfg : CopilotConfig)
    (providerGen : ProviderRequest → Except JsError Response)
    (parseResponse : Response → GeneratedCode)
    (now : Nat) (request : AIRequest) : GeneratedCode :=
  match providerGen
      ⟨[⟨"system", request.system⟩, ⟨"user", request.prompt⟩],
        cfg.maxTokens, cfg.temperature⟩ with
  | .ok r => parseResponse r
  | .error e => handleGenerationError cfg now e

/-- The enriched `CodeContext` as `buildPrompt` reads it; `some` stands for a
truthy (present and nonempty) JS value.  `projectStructure` carries its
`JSON.stringify` rendering. -/
structure CodeContext where
  currentFile : Option String
  surroundingCode : Option String
  projectStructure : Option String

/-- `CopilotEngine.buildPrompt` (lines 78-94). -/
def buildPrompt (request : CodeGenerationRequest) (context : CodeContext) :
    String :=
  let p := request.prompt
  let p := match context.currentFile with
    | some f => p ++ "\n\nCurrent file: " ++ f
    | none => p
  let p := match context.surroundingCode with
    | some sc => p ++ "\n\nSurrounding code:\n" ++ sc
    | none => p
  match context.projectStructure with
  | some ps => p ++ "\n\nProject structure: " ++ ps
  | none => p

/-- `CopilotEngine.buildSystemPrompt` (lines 96-106). -/
def buildSystemPrompt (language : String) (framework : Option String) :
    String :=
  let s := "You are an expert " ++ language ++ " developer"
  let s := match framework with
    | some f => s ++ " specializing in " ++ f
    | none => s
  s ++ ". Generate clean, efficient, and well-documented code."

/-- `CopilotEngine.enhanceTemplate` (lines 108-122). -/
def enhanceTemplate (tm : TemplateMatch) (now : Nat) : GeneratedCode where
  code := TemplateRenderer.render tm.template tm.vars
  explanation := "Generated using template: " ++ tm.template.name
  confidence := tm.confidence
  suggestions := []
  tests := none
  metadata := ⟨"template", 0, now⟩

/-- `CopilotEngine.generateCode` (lines 22-40): template first, AI fallback.
`enriched` is the context `enhanceContext` produced.  On the AI-fallback path
the only fallible step, the provider call, is already caught inside
`CodeGenerator.generate`, so the surrounding `catch` (lines 36-39) never
fires there and the function is total. -/
def CopilotEngine.generateCode {Response : Type}
    (regexTest : String → String → Bool)
    (extractVal : String → String → String → Option String)
    (templates : AList (List CodeTemplate))
    (providerGen : ProviderRequest → Except JsError Response)
    (parseResponse : Response → GeneratedCode)
    (enriched : CodeContext) (cfg : CopilotConfig) (now : Nat)
    (request : CodeGenerationRequest) : GeneratedCode :=
  let aiPath := CodeGenerator.generate cfg providerGen parseResponse now
    ⟨buildPrompt request enriched,
     buildSystemPrompt request.language request.framework⟩
  match TemplateEngine.matchE regexTest extractVal templates request with
  | some tm => if (4 : ℚ) / 5 < tm.confidence then enhanceTemplate tm now else aiPath
  | none => aiPath

/-! ### `CodeAnalyzer` complexity (unnamed/part_011) -/

/-- A JS value as the analyzer's hand-rolled AST uses it. -/
inductive JsonVal where
  | str (s : String)
  | arr (l : List JsonVal)
  | obj (fields : List (String × JsonVal))

/-- `parseJavaScriptBody` (lines 181-211): a line-based scan that only emits
`FunctionDeclaration`, `VariableDeclaration` and `ClassDeclaration` nodes. -/
def parseJavaScriptBody (content : String) : List JsonVal :=
  (strSplitOn content "\n").foldl
    (fun body line =>
      let trimmed := strTrim line
      if strStartsWith trimmed "function " then
        let fname :=
          (strSplitOn ((strSplitOn trimmed " ").getD 1 "") "(").headD ""
        body ++ [.obj [("type", .str "FunctionDeclaration"),
                       ("id", .obj [("name", .str fname)]),
                       ("params", .arr []),
                       ("body", .obj [("body", .arr [])])]]
      else if strStartsWith trimmed "const " || strStartsWith trimmed "let " ||
          strStartsWith trimmed "var " then
        body ++ [.obj [("type", .str "VariableDeclaration"),
                       ("kind", .str ((strSplitOn trimmed " ").headD "")),
                       ("declarations", .arr [])]]
      else if strStartsWith trimmed "class " then
        let cname :=
          (strSplitOn ((strSplitOn trimmed " ").getD 1 "") " ").headD ""
        body ++ [.obj [("type", .str "ClassDeclaration"),
                       ("id", .obj [("name", .str cname)]),
                       ("body", .obj [("body", .arr [])])]]
      else body)
    []

/-- The `Program` node the JavaScript parser returns (lines 83-91). -/
def programAst (content : String) : JsonVal :=
  .obj [("type", .str "Program"),
        ("body", .arr (parseJavaScriptBody content)),
        ("sourceType", .str "module")]

/-- Does an object node carry one of the four branching `type` tags that
`calculateComplexity` counts? -/
def isBranchType (fields : List (String × JsonVal)) : Bool :=
  match List.lookup "type" fields with
  | some (.str t) =>
    t == "IfStatement" || t == "WhileStatement" ||
      t == "ForStatement" || t == "SwitchStatement"
  | _ => false

mutual

/-- The recursive `traverse` of `calculateComplexity` (lines 367-388): count
branching nodes in the whole tree (strings are not objects and are skipped). -/
def branchNodeCount : JsonVal → Nat
  | .str _ => 0
  | .arr l => branchListCount l
  | .obj fields => (if isBranchType fields then 1 else 0) + branchFieldsCount fields

/-- `traverse` over the elements of a JS array. -/
def branchListCount : List JsonVal → Nat
  | [] => 0
  | x :: xs => branchNodeCount x + branchListCount xs

/-- `traverse` over the property values of a JS object. -/
def branchFieldsCount : List (String × JsonVal) → Nat
  | [] => 0
  | f :: fs => branchNodeCount f.2 + branchFieldsCount fs

end

/-- `calculateComplexity` (lines 367-388): `1` plus the branching nodes. -/
def calculateComplexity (ast : JsonVal) : Nat :=
  1 + branchNodeCount ast

/-- The `complexity` field `analyzeFile` (lines 20-48) computes for a
JavaScript `CodeFile`: complexity of the parsed program AST. -/
def analyzeFileComplexity (content : String) : Nat :=
  calculateComplexity (programAst content)

/-! ### `PluginManager.detectLanguage` (unnamed/part_013, lines 163-229) -/

/-- One token of the tiny regexes of `detectLanguageByContent`: a literal, a
whitespace class, or a word class. -/
inductive RTok where
  | lit (s : String)
  | ws1
  | ws0
  | word1

/-- Match a token sequence at the start of a character list.  Maximal munch
is exact for these patterns: every class token is followed by a character of
a disjoint class, so the JS regex backtracking never has to give back. -/
def matchAt : List RTok → List Char → Bool
  | [], _ => true
  | .lit s :: ts, cs =>
    s.toList.isPrefixOf cs && matchAt ts (cs.drop s.length)
  | .ws1 :: _, [] => false
  | .ws1 :: ts, c :: cs => wsChar c && matchAt ts (cs.dropWhile wsChar)
  | .ws0 :: ts, cs => matchAt ts (cs.dropWhile wsChar)
  | .word1 :: _, [] => false
  | .word1 :: ts, c :: cs => wordChar c && matchAt ts (cs.dropWhile wordChar)

/-- `regex.test(content)`: match at some position. -/
def regexTestToks (toks : List RTok) (s : String) : Bool :=
  s.toList.tails.any (fun suffix => matchAt toks suffix)

/-- The `patterns` table of `detectLanguageByContent` (lines 195-201), in
object-literal order. -/
def contentPatterns : List (String × List (List RTok)) :=
  [("typescript",
    [[.lit "interface", .ws1, .word1],
     [.lit "type", .ws1, .word1, .ws0, .lit "="],
     [.lit ":", .ws0, .word1]]),
   ("javascript",
    [[.lit "function", .ws1, .word1],
     [.lit "const", .ws1, .word1, .ws0, .lit "="],
     [.lit "let", .ws1, .word1, .ws0, .lit "="]]),
   ("python",
    [[.lit "def", .ws1, .word1],
     [.lit "class", .ws1, .word1],
     [.lit "import", .ws1, .word1]]),
   ("java",
    [[.lit "public class"],
     [.lit "private", .ws1, .word1],
     [.lit "public", .ws1, .word1]]),
   ("go",
    [[.lit "func", .ws1, .word1],
     [.lit "package", .ws1, .word1],
     [.lit "import", .ws0, .lit "("]])]

/-- The final loop of `detectLanguageByContent` (lines 217-228): the first
language with a strictly highest score. -/
def bestLanguage (scores : List (String × Nat)) : Option String :=
  (scores.foldl
    (fun best p => if best.2 < p.2 then (some p.1, p.2) else best)
    ((none : Option String), 0)).1

/-- `detectLanguageByContent` (lines 181-229): shebang check first, then the
pattern scores (only positive scores are recorded). -/
def detectLanguageByContent (content : String) : Option String :=
  let lines := strSplitOn content "\n"
  let firstLine := strToLower (strTrim (lines.headD ""))
  let shebang : Option String :=
    if strStartsWith firstLine "#!" then
      if strIncludes firstLine "python" then some "python"
      else if strIncludes firstLine "node" then some "javascript"
      else none
    else none
  match shebang with
  | some l => some l
  | none =>
    let scores := contentPatterns.foldl
      (fun acc p =>
        let score := (p.2.filter (fun toks => regexTestToks toks content)).length
        if 0 < score then acc ++ [(p.1, score)] else acc)
      []
    bestLanguage scores

/-- The extension map the built-in plugins register, in registration order
(`PluginManager.initialize` with `LanguagePlugin.ts`'s extension lists). -/
def pluginExtensions : AList String :=
  [(".js", "javascript"), (".jsx", "javascript"), (".mjs", "javascript"),
   (".cjs", "javascript"), (".ts", "typescript"), (".tsx", "typescript"),
   (".py", "python"), (".java", "java"), (".go", "go")]

/-- `detectLanguage` (lines 163-179): extension first (the part after the
last dot, lowercased; the empty string is falsy and skipped), then content
detection when a truthy (nonempty) content is given. -/
def detectLanguage (filePath : String) (content : Option String) :
    Option String :=
  let extension := strToLower ((strSplitOn filePath ".").getLastD "")
  let byExt :=
    if extension != "" then pluginExtensions.get? ("." ++ extension) else none
  match byExt with
  | some lang => some lang
  | none =>
    match content with
    | some c => if c != "" then detectLanguageByContent c else none
    | none => none

/-! ## Lemmas and theorems -/


namespace AList

theorem get?_set_self (l : AList α) (k : String) (v : α) :
    get? (set l k v) k = some v := by
  induction l with
  | nil => simp [set, get?, List.lookup]
  | cons p rest ih =>
    by_cases hp : p.1 = k
    · simp [set, hp, get?, List.lookup]
    · have hk : (k == p.1) = false := by simpa using Ne.symm hp
      have hp' : (p.1 == k) = false := by simpa using hp
      simpa [set, hp', get?, List.lookup, hk] using ih

theorem get?_del_self (l : AList α) (k : String) :
    get? (del l k) k = none := by
  induction l with
  | nil => simp [del, get?, List.lookup]
  | cons p rest ih =>
    by_cases hp : p.1 = k
    · simpa [del, hp] using ih
    · have hk : (k == p.1) = false := by simpa using Ne.symm hp
      simpa [del, hp, get?, List.lookup, hk] using ih

theorem keyList_set (l : AList α) (k : String) (v : α) :
    keyList (set l k v) =
      if k ∈ keyList l then keyList l else keyList l ++ [k] := by
  induction l with
  | nil => simp [set, keyList]
  | cons p rest ih =>
    by_cases hp : p.1 = k
    · simp [set, hp, keyList]
    · have hp' : (p.1 == k) = false := by simpa using hp
      have hstep : keyList (set (p :: rest) k v) =
          p.1 :: keyList (set rest k v) := by
        simp [set, hp', keyList]
      by_cases hm : k ∈ keyList rest
      · have hm' : k ∈ keyList (p :: rest) := by
          simp only [keyList, List.map_cons, List.mem_cons]
          exact Or.inr hm
        rw [hstep, ih, if_pos hm, if_pos hm']
        simp [keyList]
      · have hm' : k ∉ keyList (p :: rest) := by
          simp only [keyList, List.map_cons, List.mem_cons]
          rintro (h | h)
          · exact hp h.symm
          · exact hm h
        rw [hstep, ih, if_neg hm, if_neg hm']
        simp [keyList]

theorem length_set (l : AList α) (k : String) (v : α) :
    List.length (set l k v) =
      if k ∈ keyList l then l.length else l.length + 1 := by
  have h := congrArg List.length (keyList_set l k v)
  by_cases hm : k ∈ keyList l
  · rw [if_pos hm] at h
    rw [if_pos hm]
    simpa [keyList, List.length_map] using h
  · rw [if_neg hm] at h
    rw [if_neg hm]
    simpa [keyList, List.length_map] using h

theorem nodup_keyList_set (l : AList α) (k : String) (v : α)
    (h : (keyList l).Nodup) : (keyList (set l k v)).Nodup := by
  rw [keyList_set]
  by_cases hm : k ∈ keyList l
  · simpa [hm] using h
  · rw [if_neg hm]
    refine List.nodup_append.mpr ⟨h, List.nodup_singleton k, ?_⟩
    intro x hx hxk
    rw [List.mem_singleton] at hxk
    exact hm (hxk ▸ hx)

theorem keyList_del (l : AList α) (k : String) :
    keyList (del l k) = (keyList l).filter (fun s => s != k) := by
  induction l with
  | nil => simp [del, keyList]
  | cons p rest ih =>
    by_cases hp : p.1 = k
    · simpa [del, keyList, hp] using ih
    · simpa [del, keyList, hp] using ih

theorem length_del_of_mem (l : AList α) (k : String)
    (hnd : (keyList l).Nodup) (hm : k ∈ keyList l) :
    List.length (del l k) + 1 = l.length := by
  simp only [keyList] at hnd hm
  induction l with
  | nil => simp at hm
  | cons p rest ih =>
    rw [List.map_cons, List.nodup_cons] at hnd
    rw [List.map_cons, List.mem_cons] at hm
    rcases hm with h | h
    · have hrest : del rest k = rest := by
        unfold del
        refine List.filter_eq_self.mpr ?_
        intro q hq
        have hq1 : q.1 ≠ k := by
          intro hqk
          apply hnd.1
          rw [← h, ← hqk]
          exact List.mem_map_of_mem Prod.fst hq
        simpa using hq1
      have hpk : (p.1 != k) = false := by simp [← h]
      have hstep : del (p :: rest) k = del rest k := by
        simp [del, List.filter_cons, hpk]
      rw [hstep, hrest, List.length_cons]
    · have hp : p.1 ≠ k := fun hpk => hnd.1 (hpk ▸ h)
      have hrec := ih hnd.2 h
      have hpk : (p.1 != k) = true := by simp [hp]
      simp only [del, List.filter_cons, hpk, if_true, List.length_cons] at hrec ⊢
      omega

theorem get?_eq_of_mem_of_nodup (l : AList α) (k : String) (v : α)
    (hnd : (keyList l).Nodup) (hm : (k, v) ∈ l) : get? l k = some v := by
  simp only [keyList] at hnd
  induction l with
  | nil => simp at hm
  | cons p rest ih =>
    rw [List.map_cons, List.nodup_cons] at hnd
    rcases List.mem_cons.mp hm with h | h
    · simp [get?, List.lookup, ← h]
    · have hp : p.1 ≠ k := by
        intro hpk
        apply hnd.1
        rw [hpk]
        exact List.mem_map_of_mem Prod.fst h
      have hk : (k == p.1) = false := by simpa using Ne.symm hp
      simpa [get?, List.lookup, hk] using ih hnd.2 h

end AList


namespace ContextCache

theorem ttl_evict {α : Type} (c : ContextCache α) : c.evict.ttl = c.ttl := by
  unfold evict
  cases oldestEntry? c.timestamps with
  | none => rfl
  | some p =>
    show (if p.1 = "" then c else c.deleteKey p.1).ttl = c.ttl
    by_cases h : p.1 = ""
    · rw [if_pos h]
    · rw [if_neg h]
      rfl

theorem ttl_set {α : Type} (c : ContextCache α) (now : Nat) (k : String)
    (v : α) : (set c now k v).ttl = c.ttl := by
  unfold set insertRaw
  split <;> simp [ttl_evict]

theorem get?_timestamps_set {α : Type} (c : ContextCache α) (now : Nat)
    (k : String) (v : α) :
    AList.get? (set c now k v).timestamps k = some now := by
  unfold set insertRaw
  exact AList.get?_set_self _ k now

theorem get?_cache_set {α : Type} (c : ContextCache α) (now : Nat)
    (k : String) (v : α) :
    AList.get? (set c now k v).cache k = some v := by
  unfold set insertRaw
  exact AList.get?_set_self _ k v

theorem oldestEntry?_spec (l : AList Nat) (hne : l ≠ []) :
    ∃ p, oldestEntry? l = some p ∧ p ∈ l ∧ ∀ q ∈ l, p.2 ≤ q.2 := by
  induction l with
  | nil => cases hne rfl
  | cons p rest ih =>
    by_cases h : rest = []
    · subst h
      exact ⟨p, by simp [oldestEntry?], by simp, by simp⟩
    · obtain ⟨q, hq, hqm, hqmin⟩ := ih h
      by_cases hlt : q.2 < p.2
      · refine ⟨q, ?_, List.mem_cons_of_mem p hqm, ?_⟩
        · simp [oldestEntry?, hq, hlt]
        · intro r hr
          rcases List.mem_cons.mp hr with h1 | h1
          · exact h1 ▸ Nat.le_of_lt hlt
          · exact hqmin r h1
      · refine ⟨p, ?_, List.mem_cons_self p rest, ?_⟩
        · simp [oldestEntry?, hq, hlt]
        · intro r hr
          rcases List.mem_cons.mp hr with h1 | h1
          · exact h1 ▸ Nat.le_refl p.2
          · exact Nat.le_trans (Nat.le_of_not_lt hlt) (hqmin r h1)

end ContextCache

/-- C2: for every key `k` and value `v`, after `ContextCache.set(k, v)` at a
real clock time `t0` (so `t0 > 0`), a `get(k)` at a time `t1` at most `ttl`
ms later returns `v`; a `get(k)` strictly more than `ttl` ms after insertion
returns `null` and deletes `k` from both the value map and the timestamp
map, so a subsequent `get(k)` at any time `t2` is also `null` and `k` no
longer counts toward the cache size. -/
theorem contextCache_ttl {α : Type} (c : ContextCache α) (k : String) (v : α)
    (t0 t1 t2 : Nat) (h0 : 0 < t0) :
    (t1 - t0 ≤ c.ttl →
      (ContextCache.get (ContextCache.set c t0 k v) t1 k).1 = some v) ∧
    (c.ttl < t1 - t0 →
      (ContextCache.get (ContextCache.set c t0 k v) t1 k).1 = none ∧
      AList.get?
        (ContextCache.get (ContextCache.set c t0 k v) t1 k).2.cache k = none ∧
      AList.get?
        (ContextCache.get (ContextCache.set c t0 k v) t1 k).2.timestamps k =
          none ∧
      (ContextCache.get
        (ContextCache.get (ContextCache.set c t0 k v) t1 k).2 t2 k).1 = none ∧
      ((ContextCache.get (ContextCache.set c t0 k v) t1 k).2.cache.all
        (fun p => p.1 != k)) = true) := by
  have hts := ContextCache.get?_timestamps_set c t0 k v
  have hcv := ContextCache.get?_cache_set c t0 k v
  have ht0 : ¬ t0 = 0 := Nat.pos_iff_ne_zero.mp h0
  constructor
  · intro hfresh
    simp [ContextCache.get, hts, ht0, ContextCache.ttl_set,
      Nat.not_lt.mpr hfresh, hcv]
  · intro hexp
    have hget : ContextCache.get (ContextCache.set c t0 k v) t1 k =
        (none, ContextCache.deleteKey (ContextCache.set c t0 k v) k) := by
      simp [ContextCache.get, hts, ht0, ContextCache.ttl_set, hexp]
    rw [hget]
    refine ⟨rfl, AList.get?_del_self _ k, AList.get?_del_self _ k, ?_, ?_⟩
    · simp [ContextCache.get, ContextCache.deleteKey, AList.get?_del_self]
    · refine List.all_eq_true.mpr ?_
      intro p hp
      exact (List.mem_filter.mp hp).2

/-- Witness for `contextCache_ttl`: a concrete run (ttl 5, insertion at
clock 1, lookup at clock 10) in which the expired entry reads back `null`. -/
theorem contextCache_ttl_witness :
    0 < 1 ∧
    (ContextCache.get
      (ContextCache.set (⟨[], [], 1000, 5⟩ : ContextCache Nat) 1 "k" 42)
      10 "k").1 = none :=
  ⟨by decide,
    ((contextCache_ttl ⟨[], [], 1000, 5⟩ "k" 42 1 10 11 (by decide)).2
      (by decide)).1⟩


/-- C3, counterexample: the claimed bound fails on the code as stated.  At a
well-formed cache of capacity 2 holding the keys `""` (earliest inserted)
and `"a"`, a `set("b", …)` finds the empty string as `oldestKey`, the JS
guard `if (oldestKey)` treats it as falsy and skips the eviction, the new
entry is inserted anyway, and the cache ends with 3 > maxSize entries — no
entry was evicted. -/
theorem contextCache_eviction_counterexample :
    (⟨[("", 10), ("a", 20)], [("", 1), ("a", 2)], 2, 100⟩ :
      ContextCache Nat).wf ∧
    (ContextCache.set
      (⟨[("", 10), ("a", 20)], [("", 1), ("a", 2)], 2, 100⟩ :
        ContextCache Nat) 3 "b" 30).cache =
      [("", 10), ("a", 20), ("b", 30)] ∧
    ¬ (ContextCache.set
        (⟨[("", 10), ("a", 20)], [("", 1), ("a", 2)], 2, 100⟩ :
          ContextCache Nat) 3 "b" 30).cache.length ≤
      (⟨[("", 10), ("a", 20)], [("", 1), ("a", 2)], 2, 100⟩ :
        ContextCache Nat).maxSize :=
  ⟨⟨by decide, by decide⟩, by decide, by decide⟩

/-- C3, amended: provided no key of the cache is the empty string (the
`if (oldestKey)` truthiness guard skips the eviction when the
earliest-inserted key is `""` — see the counterexample; every key the
`ContextManager` uses is prefixed with `project:` / `user:` /
`preferences:` / `file:`, hence nonempty), under the maintained invariant
(same unique keys in both maps) and a positive capacity, a `set` keeps the
cache at or below `maxSize`; a `set` performed at capacity evicts exactly
one entry — one holding the minimal (earliest) insertion timestamp — before
inserting, i.e. it equals a delete-then-insert and shrinks the map by
exactly one; and, concretely, inserting `maxSize + 1 = 4` distinct keys
into an empty cache of capacity 3 evicts exactly the earliest-inserted
key. -/
theorem contextCache_eviction {α : Type} (c : ContextCache α) (now : Nat)
    (k : String) (v : α) (hwf : c.wf)
    (hne : "" ∉ AList.keyList c.cache) (hmax : 1 ≤ c.maxSize)
    (hsz : c.cache.length ≤ c.maxSize) :
    (ContextCache.set c now k v).cache.length ≤ c.maxSize ∧
    (c.maxSize ≤ c.cache.length →
      ∃ k0 t0, AList.get? c.timestamps k0 = some t0 ∧
        (∀ q ∈ c.timestamps, t0 ≤ q.2) ∧
        ContextCache.set c now k v =
          ContextCache.insertRaw (ContextCache.deleteKey c k0) now k v ∧
        List.length (ContextCache.deleteKey c k0).cache + 1 =
          c.cache.length) ∧
    (((((ContextCache.mk (α := Nat) [] [] 3 100).set 1 "a" 1).set
        2 "b" 2).set 3 "c" 3).set 4 "d" 4).cache =
      [("b", 2), ("c", 3), ("d", 4)] := by
  obtain ⟨hkeys, hnd⟩ := hwf
  by_cases hcap : c.maxSize ≤ c.cache.length
  · -- at capacity: maxSize = length, the timestamp map is nonempty
    have hlen : c.cache.length = c.maxSize := Nat.le_antisymm hsz hcap
    have hlents : c.timestamps.length = c.cache.length := by
      have := congrArg List.length hkeys
      simpa [AList.keyList, List.length_map] using this.symm
    have htsne : c.timestamps ≠ [] := by
      intro hnil
      rw [hnil] at hlents
      simp only [List.length_nil] at hlents
      omega
    obtain ⟨p, hp, hpm, hpmin⟩ := ContextCache.oldestEntry?_spec _ htsne
    have hp1mem : p.1 ∈ AList.keyList c.cache := by
      rw [hkeys]
      exact List.mem_map_of_mem Prod.fst hpm
    have hp1ne : ¬ p.1 = "" := fun h => hne (h ▸ hp1mem)
    have hevict : ContextCache.evict c = ContextCache.deleteKey c p.1 := by
      unfold ContextCache.evict
      rw [hp]
      show (if p.1 = "" then c else ContextCache.deleteKey c p.1) =
        ContextCache.deleteKey c p.1
      rw [if_neg hp1ne]
    have hset : ContextCache.set c now k v =
        ContextCache.insertRaw (ContextCache.deleteKey c p.1) now k v := by
      unfold ContextCache.set
      rw [if_pos hcap, hevict]
    have hdel : List.length (ContextCache.deleteKey c p.1).cache + 1 =
        c.cache.length :=
      AList.length_del_of_mem c.cache p.1 hnd hp1mem
    have htsnd : (AList.keyList c.timestamps).Nodup := hkeys ▸ hnd
    have hget0 : AList.get? c.timestamps p.1 = some p.2 :=
      AList.get?_eq_of_mem_of_nodup c.timestamps p.1 p.2 htsnd hpm
    refine ⟨?_, fun _ => ⟨p.1, p.2, hget0, hpmin, hset, hdel⟩, by decide⟩
    -- the size bound after delete-then-insert
    rw [hset]
    have hsetlen := AList.length_set (ContextCache.deleteKey c p.1).cache k v
    unfold ContextCache.insertRaw
    by_cases hkmem : k ∈ AList.keyList (ContextCache.deleteKey c p.1).cache
    · rw [if_pos hkmem] at hsetlen
      simp only [hsetlen]
      omega
    · rw [if_neg hkmem] at hsetlen
      simp only [hsetlen]
      omega
  · -- below capacity: the insert adds at most one entry
    have hset : ContextCache.set c now k v =
        ContextCache.insertRaw c now k v := by
      unfold ContextCache.set
      rw [if_neg hcap]
    refine ⟨?_, fun h => absurd h hcap, by decide⟩
    rw [hset]
    have hsetlen := AList.length_set c.cache k v
    unfold ContextCache.insertRaw
    by_cases hkmem : k ∈ AList.keyList c.cache
    · rw [if_pos hkmem] at hsetlen
      simp only [hsetlen]
      omega
    · rw [if_neg hkmem] at hsetlen
      simp only [hsetlen]
      omega

/-- Witness for `contextCache_eviction`: the invariant, the nonempty-key
hypothesis and the bounds discharged on a concrete two-entry cache at
capacity 2, plus the concrete overflow consequence. -/
theorem contextCache_eviction_witness :
    (⟨[("a", 10), ("b", 20)], [("a", 1), ("b", 2)], 2, 100⟩ :
      ContextCache Nat).wf ∧
    "" ∉ AList.keyList
      (⟨[("a", 10), ("b", 20)], [("a", 1), ("b", 2)], 2, 100⟩ :
        ContextCache Nat).cache ∧
    (ContextCache.set
      (⟨[("a", 10), ("b", 20)], [("a", 1), ("b", 2)], 2, 100⟩ :
        ContextCache Nat) 3 "c" 30).cache.length ≤ 2 :=
  ⟨⟨by decide, by decide⟩, by decide,
    (contextCache_eviction
      ⟨[("a", 10), ("b", 20)], [("a", 1), ("b", 2)], 2, 100⟩ 3 "c" 30
      ⟨by decide, by decide⟩ (by decide) (by decide) (by decide)).1⟩


theorem recentPrompts_addUserPrompt (h : UserHistory) (p : String) :
    (addUserPrompt h p).recentPrompts = (p :: h.recentPrompts).take 10 := by
  unfold addUserPrompt
  by_cases hl : 10 < (p :: h.recentPrompts).length
  · simp [hl]
  · simp only [hl, if_false]
    exact (List.take_of_length_le (Nat.le_of_not_lt hl)).symm

theorem capped_cons_le (x : String) (l : List String) (n : Nat) :
    (if n < (x :: l).length then (x :: l).take n else x :: l).length ≤ n := by
  by_cases h : n < (x :: l).length
  · rw [if_pos h, List.length_take]
    exact Nat.min_le_left _ _
  · rw [if_neg h]
    simpa using Nat.le_of_not_lt h

theorem apply_bounded (h : UserHistory) (op : HistoryOp)
    (hb : h.bounded) : (HistoryOp.apply h op).bounded := by
  obtain ⟨h1, h2, h3⟩ := hb
  cases op with
  | prompt s =>
    refine ⟨?_, h2, h3⟩
    show (if 10 < (s :: h.recentPrompts).length then
        (s :: h.recentPrompts).take 10 else s :: h.recentPrompts).length ≤ 10
    exact capped_cons_le s _ 10
  | pat s =>
    show (addPreferredPattern h s).bounded
    unfold addPreferredPattern
    by_cases hc : h.preferredPatterns.contains s
    · rw [if_pos hc]
      exact ⟨h1, h2, h3⟩
    · rw [if_neg hc]
      refine ⟨h1, ?_, h3⟩
      show (if 5 < (s :: h.preferredPatterns).length then
          (s :: h.preferredPatterns).take 5
        else s :: h.preferredPatterns).length ≤ 5
      exact capped_cons_le s _ 5
  | mistake s =>
    show (addCommonMistake h s).bounded
    unfold addCommonMistake
    by_cases hc : h.commonMistakes.contains s
    · rw [if_pos hc]
      exact ⟨h1, h2, h3⟩
    · rw [if_neg hc]
      refine ⟨h1, h2, ?_⟩
      show (if 5 < (s :: h.commonMistakes).length then
          (s :: h.commonMistakes).take 5
        else s :: h.commonMistakes).length ≤ 5
      exact capped_cons_le s _ 5

theorem foldl_apply_bounded (h : UserHistory) (ops : List HistoryOp)
    (hb : h.bounded) : (ops.foldl HistoryOp.apply h).bounded := by
  induction ops generalizing h with
  | nil => simpa using hb
  | cons op rest ih => exact ih _ (apply_bounded h op hb)

theorem take_append_take {γ : Type} (a b : List γ) (n : Nat) :
    (a ++ b.take n).take n = (a ++ b).take n := by
  rw [List.take_append_eq_append_take, List.take_append_eq_append_take,
    List.take_take]
  congr 2
  omega

theorem foldl_addUserPrompt (ps : List String) (h : UserHistory)
    (hlen : h.recentPrompts.length ≤ 10) :
    (ps.foldl addUserPrompt h).recentPrompts =
      (ps.reverse ++ h.recentPrompts).take 10 := by
  induction ps generalizing h with
  | nil => simp [List.take_of_length_le hlen]
  | cons p rest ih =>
    have hstep := recentPrompts_addUserPrompt h p
    have hlen2 : (addUserPrompt h p).recentPrompts.length ≤ 10 := by
      rw [hstep]
      simp [List.length_take]
    calc (List.foldl addUserPrompt h (p :: rest)).recentPrompts
        = (List.foldl addUserPrompt (addUserPrompt h p) rest).recentPrompts :=
          rfl
      _ = (rest.reverse ++ (addUserPrompt h p).recentPrompts).take 10 :=
          ih _ hlen2
      _ = (rest.reverse ++ (p :: h.recentPrompts).take 10).take 10 := by
          rw [hstep]
      _ = (rest.reverse ++ (p :: h.recentPrompts)).take 10 :=
          take_append_take _ _ 10
      _ = ((p :: rest).reverse ++ h.recentPrompts).take 10 := by
          simp

/-- C7: for every sequence of `addUserPrompt` / `addPreferredPattern` /
`addCommonMistake` calls the `UserHistory` lists stay within their caps
(10 / 5 / 5); each operation inserts at the front (the pattern and mistake
lists when the item is new); and a run of `addUserPrompt` over any prompt
list leaves exactly the 10 most recent prompts, most recent first — in
particular 15 distinct prompts leave the last 10, reversed. -/
theorem userHistory_bounded_caps :
    (∀ ops : List HistoryOp,
      (ops.foldl HistoryOp.apply UserHistory.empty).bounded) ∧
    (∀ (h : UserHistory) (p : String),
      (addUserPrompt h p).recentPrompts.head? = some p) ∧
    (∀ (h : UserHistory) (p : String),
      h.preferredPatterns.contains p = false →
      (addPreferredPattern h p).preferredPatterns.head? = some p) ∧
    (∀ (h : UserHistory) (m : String),
      h.commonMistakes.contains m = false →
      (addCommonMistake h m).commonMistakes.head? = some m) ∧
    (∀ ps : List String,
      (ps.foldl addUserPrompt UserHistory.empty).recentPrompts =
        ps.reverse.take 10) := by
  refine ⟨?_, ?_, ?_, ?_, ?_⟩
  · intro ops
    exact foldl_apply_bounded _ ops ⟨by simp [UserHistory.empty],
      by simp [UserHistory.empty], by simp [UserHistory.empty]⟩
  · intro h p
    rw [recentPrompts_addUserPrompt]
    show ((p :: h.recentPrompts).take (9 + 1)).head? = some p
    rw [List.take_succ_cons]
    rfl
  · intro h p hc
    unfold addPreferredPattern
    rw [if_neg (by intro hm; rw [hm] at hc; simp at hc)]
    by_cases hl : 5 < (p :: h.preferredPatterns).length
    · show (if 5 < (p :: h.preferredPatterns).length then
          (p :: h.preferredPatterns).take 5
        else p :: h.preferredPatterns).head? = some p
      rw [if_pos hl]
      show ((p :: h.preferredPatterns).take (4 + 1)).head? = some p
      rw [List.take_succ_cons]
      rfl
    · show (if 5 < (p :: h.preferredPatterns).length then
          (p :: h.preferredPatterns).take 5
        else p :: h.preferredPatterns).head? = some p
      rw [if_neg hl]
      rfl
  · intro h m hc
    unfold addCommonMistake
    rw [if_neg (by intro hm; rw [hm] at hc; simp at hc)]
    by_cases hl : 5 < (m :: h.commonMistakes).length
    · show (if 5 < (m :: h.commonMistakes).length then
          (m :: h.commonMistakes).take 5
        else m :: h.commonMistakes).head? = some m
      rw [if_pos hl]
      show ((m :: h.commonMistakes).take (4 + 1)).head? = some m
      rw [List.take_succ_cons]
      rfl
    · show (if 5 < (m :: h.commonMistakes).length then
          (m :: h.commonMistakes).take 5
        else m :: h.commonMistakes).head? = some m
      rw [if_neg hl]
      rfl
  · intro ps
    have := foldl_addUserPrompt ps UserHistory.empty (by simp [UserHistory.empty])
    simpa [UserHistory.empty] using this

/-- Witness for `userHistory_bounded_caps`: the front-insertion conjuncts
applied to a concrete history whose lists do not yet hold the new items. -/
theorem userHistory_bounded_caps_witness :
    (UserHistory.mk [] ["a"] ["b"]).preferredPatterns.contains "x" = false ∧
    (addPreferredPattern ⟨[], ["a"], ["b"]⟩ "x").preferredPatterns.head? =
      some "x" ∧
    (addCommonMistake ⟨[], ["a"], ["b"]⟩ "y").commonMistakes.head? =
      some "y" :=
  ⟨by decide,
    userHistory_bounded_caps.2.2.1 ⟨[], ["a"], ["b"]⟩ "x" (by decide),
    userHistory_bounded_caps.2.2.2.1 ⟨[], ["a"], ["b"]⟩ "y" (by decide)⟩

/-- C10: adding an already-present preferred pattern (or common mistake)
leaves the user history entirely unchanged — the item is neither duplicated
nor moved to the front. -/
theorem addPattern_idem :
    (∀ (h : UserHistory) (p : String),
      h.preferredPatterns.contains p = true → addPreferredPattern h p = h) ∧
    (∀ (h : UserHistory) (m : String),
      h.commonMistakes.contains m = true → addCommonMistake h m = h) := by
  constructor
  · intro h p hc
    unfold addPreferredPattern
    rw [if_pos hc]
  · intro h m hc
    unfold addCommonMistake
    rw [if_pos hc]

/-- Witness for `addPattern_idem`: a concrete history keeping its pattern
list (with the re-added item in second position, so a move-to-front would
show). -/
theorem addPattern_idem_witness :
    (UserHistory.mk [] ["a", "x"] ["y"]).preferredPatterns.contains "x" =
      true ∧
    addPreferredPattern ⟨[], ["a", "x"], ["y"]⟩ "x" = ⟨[], ["a", "x"], ["y"]⟩ ∧
    addCommonMistake ⟨[], ["a", "x"], ["y"]⟩ "y" = ⟨[], ["a", "x"], ["y"]⟩ :=
  ⟨by decide,
    addPattern_idem.1 ⟨[], ["a", "x"], ["y"]⟩ "x" (by decide),
    addPattern_idem.2 ⟨[], ["a", "x"], ["y"]⟩ "y" (by decide)⟩


/-- C4, counterexample: on `detectLanguage("foo.txt", "def foo():\n    pass")`
the claimed result `"python"` is wrong — the typescript pattern `:\s*\w+`
matches the content too (`):` followed by the indented `pass`), both
languages score 1, and the tie goes to typescript, which comes first in the
pattern table. -/
theorem detectLanguage_content_counterexample :
    ¬ detectLanguage "foo.txt" (some "def foo():\n    pass") = some "python" ∧
    detectLanguage "foo.txt" (some "def foo():\n    pass") =
      some "typescript" :=
  ⟨by decide, by decide⟩

/-- C4, amended: after the built-in plugins are registered,
`detectLanguage("foo.py")` resolves to `"python"` from the extension alone;
`detectLanguage("foo.txt", "def foo():\n    pass")` falls back to content
detection and yields `"typescript"` (a 1-1 pattern-score tie with python,
broken by table order); `detectLanguage("foo.txt", "")` yields `null`. -/
theorem detectLanguage_scenarios :
    detectLanguage "foo.py" none = some "python" ∧
    detectLanguage "foo.txt" (some "def foo():\n    pass") =
      some "typescript" ∧
    detectLanguage "foo.txt" (some "") = none :=
  ⟨by decide, by decide, by decide⟩

/-- C5, counterexample: the line-based JavaScript parser emits nodes only for
lines starting with `function` / `const` / `let` / `var` / `class`, so
`"if (a) \x7b \x7d while(b) \x7b \x7d"` parses to an empty body and the
complexity is 1, not the claimed 3. -/
theorem analyzeFile_complexity_counterexample :
    ¬ analyzeFileComplexity "if (a) \x7b \x7d while(b) \x7b \x7d" = 3 ∧
    analyzeFileComplexity "if (a) \x7b \x7d while(b) \x7b \x7d" = 1 :=
  ⟨by decide, by decide⟩

/-- C5, amended: `analyzeFile` on that JavaScript file reports complexity 1:
the parse of the content is empty (no If/While nodes exist in the parser's
vocabulary), and in general the complexity is 1 plus the number of
If/While/For/Switch nodes in the parsed AST. -/
theorem analyzeFile_complexity_amended :
    (parseJavaScriptBody "if (a) \x7b \x7d while(b) \x7b \x7d").length = 0 ∧
    analyzeFileComplexity "if (a) \x7b \x7d while(b) \x7b \x7d" = 1 ∧
    ∀ content, analyzeFileComplexity content =
      1 + branchNodeCount (programAst content) :=
  ⟨by decide, by decide, fun _ => rfl⟩

/-- C6: `findRelated` does not behave as specified, because
`for (const [indexedPath] of this.index)` iterates the keys of the inverted
index — the keywords — not the indexed file paths.  Concretely: after
indexing `"a/foo.ts"` (content `"xyzzy xyzzy"`), `findRelated("b/foo.js")`
returns `[]` even though `"a/foo.ts"` qualifies under the stated filename
rule (third conjunct: exact base-name match); and after indexing
`"docs/note.md"` with content `"foobar content"`, `findRelated("src/foo.js")`
returns the keyword `"foobar"`, which is not the path of any indexed file. -/
theorem codeIndexer_findRelated_keyword_bug :
    (CodeIndexer.empty.indexFile "a/foo.ts" "xyzzy xyzzy").findRelated
        "b/foo.js" = [] ∧
    (CodeIndexer.empty.indexFile "docs/note.md" "foobar content").findRelated
        "src/foo.js" = ["foobar"] ∧
    isSimilarFileName "foo.js" "foo.ts" = true :=
  ⟨by decide, by decide, by decide⟩

/-- C9: for every built-in template, rendering any of its examples with the
example's variables supplied verbatim reproduces the example's output
exactly (the `js-function-basic` greeting example is the only built-in
example). -/
theorem template_example_roundtrip :
    ∀ t ∈ builtinTemplates, ∀ ex ∈ t.examples,
      TemplateRenderer.render t ex.vars = ex.output := by decide

/-- Witness for `template_example_roundtrip`: the `js-function-basic`
example rendered concretely. -/
theorem template_example_roundtrip_witness :
    jsFunctionBasic ∈ builtinTemplates ∧
    TemplateRenderer.render jsFunctionBasic
        [("functionName", "greet"), ("parameters", "name"),
         ("functionBody", "return `Hello, $\x7bname\x7d!`;")] =
      "function greet(name) \x7b\n  return `Hello, $\x7bname\x7d!`;\n\x7d" :=
  ⟨by decide,
    template_example_roundtrip jsFunctionBasic (by decide)
      ⟨"Simple greeting function",
        [("functionName", "greet"), ("parameters", "name"),
         ("functionBody", "return `Hello, $\x7bname\x7d!`;")],
        "function greet(name) \x7b\n  return `Hello, $\x7bname\x7d!`;\n\x7d"⟩
      (by decide)⟩


theorem strIncludes_append_left (a b : String) :
    strIncludes (a ++ b) a = true := by
  unfold strIncludes
  refine List.any_eq_true.mpr ⟨(a ++ b).toList, ?_, ?_⟩
  · exact (List.mem_tails _ _).mpr (List.suffix_refl _)
  · have hdata : (a ++ b).toList = a.toList ++ b.toList := by
      simp [String.toList, String.data_append]
    rw [hdata]
    exact List.isPrefixOf_iff_prefix.mpr (List.prefix_append _ _)

/-- C8: when the AI provider call throws, `CodeGenerator.generate` does not
propagate the exception: it returns the fallback `GeneratedCode` — empty
code, confidence 0, an explanation containing `"Failed to generate code"`,
and the two generic retry suggestions — and on `CopilotEngine.generateCode`'s
AI-fallback path (no template qualified) the engine returns exactly this
fallback value rather than raising. -/
theorem codeGenerator_error_fallback (Response : Type)
    (parseResponse : Response → GeneratedCode) (cfg : CopilotConfig)
    (now : Nat) (e : JsError) (request : AIRequest)
    (providerGen : ProviderRequest → Except JsError Response)
    (hp : ∀ pr, providerGen pr = Except.error e) :
    CodeGenerator.generate cfg providerGen parseResponse now request =
      handleGenerationError cfg now e ∧
    (CodeGenerator.generate cfg providerGen parseResponse now request).code =
      "" ∧
    (CodeGenerator.generate cfg providerGen parseResponse now
      request).confidence = 0 ∧
    strIncludes
      (CodeGenerator.generate cfg providerGen parseResponse now
        request).explanation "Failed to generate code" = true ∧
    (CodeGenerator.generate cfg providerGen parseResponse now
      request).suggestions =
      ["Please try again with a more specific prompt",
       "Check your internet connection"] ∧
    (∀ (regexTest : String → String → Bool)
      (extractVal : String → String → String → Option String)
      (templates : AList (List CodeTemplate)) (enriched : CodeContext)
      (rq : CodeGenerationRequest),
      TemplateEngine.matchE regexTest extractVal templates rq = none →
      CopilotEngine.generateCode regexTest extractVal templates providerGen
          parseResponse enriched cfg now rq =
        handleGenerationError cfg now e) := by
  have hgen : ∀ rq2 : AIRequest,
      CodeGenerator.generate cfg providerGen parseResponse now rq2 =
        handleGenerationError cfg now e := by
    intro rq2
    unfold CodeGenerator.generate
    rw [hp]
  have hexp : strIncludes
      ("Failed to generate code: " ++ e.message) "Failed to generate code" =
        true := by
    have h := strIncludes_append_left "Failed to generate code"
      (": " ++ e.message)
    simpa [String.append_assoc] using h
  refine ⟨hgen request, by rw [hgen request]; rfl,
    by rw [hgen request]; rfl, ?_, by rw [hgen request]; rfl, ?_⟩
  · rw [hgen request]
    exact hexp
  · intro rt ev templates enriched rq hnone
    unfold CopilotEngine.generateCode
    rw [hnone]
    exact hgen _

/-- Witness for `codeGenerator_error_fallback`: a provider that always
throws `"boom"`, applied at a concrete config and request. -/
theorem codeGenerator_error_fallback_witness :
    (∀ pr : ProviderRequest,
      (fun _ : ProviderRequest =>
        (Except.error ⟨"boom"⟩ : Except JsError Unit)) pr =
        Except.error ⟨"boom"⟩) ∧
    CodeGenerator.generate ⟨"openai", "gpt-4", 100, 1, 8⟩
        (fun _ : ProviderRequest => (Except.error ⟨"boom"⟩ : Except JsError Unit))
        (fun _ : Unit => ⟨"", "", 0, [], none, ⟨"", 0, 0⟩⟩) 5 ⟨"p", "s"⟩ =
      handleGenerationError ⟨"openai", "gpt-4", 100, 1, 8⟩ 5 ⟨"boom"⟩ :=
  ⟨fun _ => rfl,
    (codeGenerator_error_fallback Unit
      (fun _ : Unit => ⟨"", "", 0, [], none, ⟨"", 0, 0⟩⟩)
      ⟨"openai", "gpt-4", 100, 1, 8⟩ 5 ⟨"boom"⟩ ⟨"p", "s"⟩
      (fun _ => Except.error ⟨"boom"⟩) (fun _ => rfl)).1⟩


theorem matchFirst_spec (rt : String → String → Bool)
    (ev : String → String → String → Option String) (prompt : String)
    (l : List CodeTemplate) :
    (∀ m, matchFirst rt ev prompt l = some m →
      ∃ pre t post, l = pre ++ t :: post ∧
        m = TemplateMatcher.matchT rt ev prompt t ∧
        (4 : ℚ) / 5 < calculateConfidence rt prompt t ∧
        ∀ t2 ∈ pre, calculateConfidence rt prompt t2 ≤ 4 / 5) ∧
    (matchFirst rt ev prompt l = none ↔
      ∀ t ∈ l, calculateConfidence rt prompt t ≤ 4 / 5) := by
  induction l with
  | nil =>
    exact ⟨fun m hm => by simp [matchFirst] at hm, by simp [matchFirst]⟩
  | cons t rest ih =>
    by_cases hconf : (4 : ℚ) / 5 < calculateConfidence rt prompt t
    · have heq : matchFirst rt ev prompt (t :: rest) =
          some (TemplateMatcher.matchT rt ev prompt t) := by
        simp [matchFirst, TemplateMatcher.matchT, hconf]
      constructor
      · intro m hm
        rw [heq] at hm
        exact ⟨[], t, rest, by simp, (Option.some_injective _ hm).symm,
          hconf, by simp⟩
      · rw [heq]
        constructor
        · intro hnone
          cases hnone
        · intro hall
          exact absurd (hall t (List.mem_cons_self t rest))
            (not_le.mpr hconf)
    · have heq : matchFirst rt ev prompt (t :: rest) =
          matchFirst rt ev prompt rest := by
        simp [matchFirst, TemplateMatcher.matchT, hconf]
      constructor
      · intro m hm
        rw [heq] at hm
        obtain ⟨pre, t2, post, hsplit, hmeq, hc, hpre⟩ := ih.1 m hm
        refine ⟨t :: pre, t2, post, by simp [hsplit], hmeq, hc, ?_⟩
        intro t3 ht3
        rcases List.mem_cons.mp ht3 with h | h
        · exact h ▸ le_of_not_lt hconf
        · exact hpre t3 h
      · rw [heq, ih.2]
        constructor
        · intro hall t2 ht2
          rcases List.mem_cons.mp ht2 with h | h
          · exact h ▸ le_of_not_lt hconf
          · exact hall t2 h
        · intro hall t2 ht2
          exact hall t2 (List.mem_cons_of_mem t ht2)

/-- C1: for a fixed catalog and any request, `TemplateEngine.match` scans the
templates registered under `request.language` in registration order and
returns the first match whose confidence exceeds `0.8` (every template
before it scores at most `0.8` — not the best-scoring one), or `null`
exactly when no registered template qualifies; and the result depends only
on the catalog, the language and the prompt, so two identical requests
give identical results whatever the regex and variable-extraction hosts do
elsewhere. -/
theorem templateEngine_match_spec (rt : String → String → Bool)
    (ev : String → String → String → Option String)
    (templates : AList (List CodeTemplate))
    (request : CodeGenerationRequest) :
    (∀ m, TemplateEngine.matchE rt ev templates request = some m →
      ∃ pre t post,
        (AList.get? templates request.language).getD [] = pre ++ t :: post ∧
        m = TemplateMatcher.matchT rt ev request.prompt t ∧
        (4 : ℚ) / 5 < m.confidence ∧
        ∀ t2 ∈ pre, calculateConfidence rt request.prompt t2 ≤ 4 / 5) ∧
    (TemplateEngine.matchE rt ev templates request = none ↔
      ∀ t ∈ (AList.get? templates request.language).getD [],
        calculateConfidence rt request.prompt t ≤ 4 / 5) ∧
    (∀ r2 : CodeGenerationRequest, r2.prompt = request.prompt →
      r2.language = request.language →
      TemplateEngine.matchE rt ev templates r2 =
        TemplateEngine.matchE rt ev templates request) := by
  have hspec := matchFirst_spec rt ev request.prompt
    ((AList.get? templates request.language).getD [])
  refine ⟨?_, ?_, ?_⟩
  · intro m hm
    obtain ⟨pre, t, post, hsplit, hmeq, hc, hpre⟩ :=
      hspec.1 m (by simpa [TemplateEngine.matchE] using hm)
    refine ⟨pre, t, post, hsplit, hmeq, ?_, hpre⟩
    rw [hmeq]
    exact hc
  · simpa [TemplateEngine.matchE] using hspec.2
  · intro r2 hp hl
    unfold TemplateEngine.matchE
    rw [hp, hl]

/-- Witness for `templateEngine_match_spec`: with a host regex that always
matches, the prompt `"create basic function javascript template"` pushes
`js-function-basic` — the first template registered under `javascript` —
over the threshold, and the theorem decomposes the catalog around it. -/
theorem templateEngine_match_spec_witness :
    ∃ pre t post,
      (AList.get? builtinCatalog "javascript").getD [] = pre ++ t :: post ∧
      TemplateMatcher.matchT (fun _ _ => true) (fun _ _ _ => none)
          "create basic function javascript template" jsFunctionBasic =
        TemplateMatcher.matchT (fun _ _ => true) (fun _ _ _ => none)
          "create basic function javascript template" t ∧
      (4 : ℚ) / 5 <
        (TemplateMatcher.matchT (fun _ _ => true) (fun _ _ _ => none)
          "create basic function javascript template"
          jsFunctionBasic).confidence ∧
      ∀ t2 ∈ pre,
        calculateConfidence (fun _ _ => true)
          "create basic function javascript template" t2 ≤ 4 / 5 := by
  have hkw : matcherExtractKeywords jsFunctionBasic.name
      jsFunctionBasic.description =
      ["basic", "function", "javascript", "template"] := by decide
  have hfil : (["basic", "function", "javascript", "template"].filter
      (fun kw => strIncludes
        (strToLower "create basic function javascript template")
        (strToLower kw))).length = 4 := by decide
  have hconf : (4 : ℚ) / 5 < calculateConfidence (fun _ _ => true)
      "create basic function javascript template" jsFunctionBasic := by
    simp only [calculateConfidence, hkw, hfil]
    rw [if_pos (by decide : (jsFunctionBasic.pattern != "" && true) = true)]
    norm_num [min_def]
  have hc2 : (4 : ℚ) / 5 <
      (TemplateMatcher.matchT (fun _ _ => true) (fun _ _ _ => none)
        "create basic function javascript template"
        jsFunctionBasic).confidence := hconf
  have hmatch : TemplateEngine.matchE (fun _ _ => true) (fun _ _ _ => none)
      builtinCatalog
      ⟨"create basic function javascript template", "javascript", none⟩ =
      some (TemplateMatcher.matchT (fun _ _ => true) (fun _ _ _ => none)
        "create basic function javascript template" jsFunctionBasic) := by
    unfold TemplateEngine.matchE
    rw [show AList.get? builtinCatalog "javascript" =
      some [jsFunctionBasic, jsClassBasic] from by decide]
    simp only [Option.getD_some, matchFirst]
    rw [if_pos hc2]
  exact (templateEngine_match_spec (fun _ _ => true) (fun _ _ _ => none)
    builtinCatalog
    ⟨"create basic function javascript template", "javascript", none⟩).1
    (TemplateMatcher.matchT (fun _ _ => true) (fun _ _ _ => none)
      "create basic function javascript template" jsFunctionBasic) hmatch

end Baseai
